import Mathlib

/-!
Shallow embedding of the localtunnel-server `TunnelAgent`
(src/lib/TunnelAgent.js) and proofs of its specified properties.

Sockets and createConnection callbacks are identified by natural numbers
(they stand for the JS object identities). The imperative state of a
`TunnelAgent` is a record; each event-handler / method of the class
becomes a function from state to state paired with the list of observable
effects (events emitted, callbacks completed, sockets destroyed) in the
order they occur.
-/

namespace TunnelAgent

/-- Observable effects of one agent step, in order of occurrence:
`online` / `offline` / `end` events emitted on the agent, a callback
completed with the `closed` error (`cbErrClosed`), a callback handed a
socket (`cbSocket`), or a freshly accepted socket destroyed because the
agent is over budget (`sockDestroyed`). -/
inductive Evt where
  | online : Evt
  | offline : Evt
  | endEvt : Evt
  | cbErrClosed (cb : Nat) : Evt
  | cbSocket (cb : Nat) (sock : Nat) : Evt
  | sockDestroyed (sock : Nat) : Evt
deriving DecidableEq, Repr

/-- The mutable fields of a `TunnelAgent` (constructor, lines 28-59 of
src/lib/TunnelAgent.js), plus one ghost field.

`connectedSockets` is a JS number that is incremented and decremented, so
it is modelled as `Int` (non-negativity is proved, not assumed).

`checkedOut` is ghost instrumentation absent from the source: it records
the sockets that have been handed to consumers via a callback and have
not yet closed.  The source does not track checked-out sockets (the
consumer receives a borrow); the ghost list exists only so that the
spec's quantity `|checked_out|` is expressible.

`listenerClosed` is the state of the owned listener (`this.server`):
whether `server.close()` has been called.  `destroy()` (line 229) sets
it; node defers the listener's `close` event — which runs `_onClose`
and sets `closed` — until every existing tunnel socket has ended, so
`closed` and `listenerClosed` are distinct in between. -/
structure AgentState where
  availableSockets : List Nat
  waitingCreateConn : List Nat
  connectedSockets : Int
  maxTcpSockets : Nat
  closed : Bool
  listenerClosed : Bool
  agentIps : List String
  checkedOut : List Nat
deriving DecidableEq, Repr

/-- The state right after `new TunnelAgent(options)`:
empty pool, empty waiters, zero connected sockets, not closed. -/
def initState (maxTcpSockets : Nat) : AgentState :=
  { availableSockets := []
    waitingCreateConn := []
    connectedSockets := 0
    maxTcpSockets := maxTcpSockets
    closed := false
    listenerClosed := false
    agentIps := []
    checkedOut := [] }

end TunnelAgent

namespace Ipaddr

/-!
Model of the parts of the external `ipaddr.js` library used by
`_onConnection` (src/lib/TunnelAgent.js lines 157-173): `IPv4.isValid`,
`IPv6.isValid`, `IPv6.parse`, `isIPv4MappedAddress`, `toIPv4Address` and
`toNormalizedString`, for canonical address strings (the only strings a
socket's `remoteAddress` produces).  Parsing works on `List Char` so that
all functions evaluate by kernel reduction.
-/

/-- Split a character list at every occurrence of `sep`, keeping empty
segments (the semantics of `String.splitOn` with a one-character
separator). -/
def splitChar (sep : Char) : List Char → List (List Char)
  | [] => [[]]
  | c :: cs =>
    if c = sep then [] :: splitChar sep cs
    else
      match splitChar sep cs with
      | h :: t => (c :: h) :: t
      | [] => [[c]]

/-- Split a character list at every non-overlapping occurrence of `::`
(the semantics of `String.splitOn "::"`). -/
def splitDoubleColon : List Char → List (List Char)
  | [] => [[]]
  | ':' :: ':' :: rest => [] :: splitDoubleColon rest
  | c :: rest =>
    match splitDoubleColon rest with
    | h :: t => (c :: h) :: t
    | [] => [[c]]

def decValue (l : List Char) : Nat :=
  l.foldl (fun acc c => 10 * acc + (c.toNat - 48)) 0

/-- A canonical decimal IPv4 octet: digits only, no extra leading zero,
value at most 255. -/
def isDecOctet (l : List Char) : Bool :=
  match l with
  | [] => false
  | c :: cs =>
    (c :: cs).all Char.isDigit && (cs.isEmpty || c != '0') &&
      decide (decValue (c :: cs) ≤ 255)

/-- `ipaddr.IPv4.isValid`: a canonical dotted-quad IPv4 string. -/
def isValidIPv4Chars (l : List Char) : Bool :=
  match splitChar '.' l with
  | [a, b, c, d] => isDecOctet a && isDecOctet b && isDecOctet c && isDecOctet d
  | _ => false

def isValidIPv4 (s : String) : Bool := isValidIPv4Chars s.data

/-- The four octet values of a (valid) dotted-quad IPv4 string. -/
def ipv4Octets (l : List Char) : List Nat :=
  (splitChar '.' l).map decValue

def isHexDigitChar (c : Char) : Bool :=
  c.isDigit || ('a' ≤ c && c ≤ 'f') || ('A' ≤ c && c ≤ 'F')

def hexDigitVal (c : Char) : Nat :=
  if c.isDigit then c.toNat - 48
  else if 'a' ≤ c && c ≤ 'f' then c.toNat - 87
  else c.toNat - 55

def hexValue (l : List Char) : Nat :=
  l.foldl (fun acc c => 16 * acc + hexDigitVal c) 0

/-- One hexadecimal group of an IPv6 address: one to four hex digits. -/
def isHexGroup (l : List Char) : Bool :=
  match l with
  | [] => false
  | h :: t => decide (t.length ≤ 3) && (h :: t).all isHexDigitChar

/-- Parse a run of colon-separated IPv6 segments into 16-bit group
values; only the final segment may be a dotted-quad IPv4 tail, which
contributes two groups. -/
def parseSegments : List (List Char) → Option (List Nat)
  | [] => some []
  | [l] =>
    if isHexGroup l then some [hexValue l]
    else if isValidIPv4Chars l then
      match ipv4Octets l with
      | [a, b, c, d] => some [256 * a + b, 256 * c + d]
      | _ => none
    else none
  | l :: rest =>
    if isHexGroup l then (parseSegments rest).map (fun gs => hexValue l :: gs)
    else none

/-- `ipaddr.IPv6.parse` for canonical strings: the eight 16-bit groups,
or `none` when the string is not a valid IPv6 address. -/
def parseIPv6Groups (s : String) : Option (List Nat) :=
  match splitDoubleColon s.data with
  | [whole] =>
    match parseSegments (splitChar ':' whole) with
    | some gs => if gs.length = 8 then some gs else none
    | none => none
  | [l, r] =>
    let lsegs := if l.isEmpty then [] else splitChar ':' l
    let rsegs := if r.isEmpty then [] else splitChar ':' r
    if lsegs.all isHexGroup then
      match parseSegments rsegs with
      | some rgs =>
        let lgs := lsegs.map hexValue
        if lgs.length + rgs.length ≤ 7 then
          some (lgs ++ List.replicate (8 - lgs.length - rgs.length) 0 ++ rgs)
        else none
      | none => none
    else none
  | _ => none

def isValidIPv6 (s : String) : Bool := (parseIPv6Groups s).isSome

/-- `isIPv4MappedAddress`: the first five groups are zero and the sixth
is `0xffff`. -/
def isIPv4MappedAddress (gs : List Nat) : Bool :=
  match gs with
  | [0, 0, 0, 0, 0, 65535, _, _] => true
  | _ => false

/-- `ip.toIPv4Address().toString()` for a mapped address: the last 32
bits as a dotted quad. -/
def toIPv4AddressString (gs : List Nat) : String :=
  match gs with
  | [_, _, _, _, _, _, hi, lo] =>
    toString (hi / 256) ++ "." ++ toString (hi % 256) ++ "." ++
      toString (lo / 256) ++ "." ++ toString (lo % 256)
  | _ => ""

def hexChar (n : Nat) : Char :=
  if n < 10 then Char.ofNat (48 + n) else Char.ofNat (87 + n)

/-- Lowercase hexadecimal of a 16-bit group without leading zeros. -/
def toHexGroup (n : Nat) : String :=
  if n < 16 then String.mk [hexChar n]
  else if n < 256 then String.mk [hexChar (n / 16), hexChar (n % 16)]
  else if n < 4096 then
    String.mk [hexChar (n / 256), hexChar (n / 16 % 16), hexChar (n % 16)]
  else
    String.mk [hexChar (n / 4096), hexChar (n / 256 % 16), hexChar (n / 16 % 16),
      hexChar (n % 16)]

/-- `ip.toNormalizedString()`: all eight groups in lowercase hex without
leading zeros, joined by colons (no `::` compression). -/
def toNormalizedString (gs : List Nat) : String :=
  String.intercalate ":" (gs.map toHexGroup)

end Ipaddr

namespace TunnelAgent

/-- The remote-address sanitization of `_onConnection`
(src/lib/TunnelAgent.js lines 157-173): a valid IPv4 string is kept as
is; a valid IPv6 string is folded to its IPv4 form when it is an
IPv4-mapped address and otherwise normalized; anything else is ignored
(`none`). -/
def normalizeIp (ipString : String) : Option String :=
  if Ipaddr.isValidIPv4 ipString then some ipString
  else
    match Ipaddr.parseIPv6Groups ipString with
    | some ip =>
      if Ipaddr.isIPv4MappedAddress ip then some (Ipaddr.toIPv4AddressString ip)
      else some (Ipaddr.toNormalizedString ip)
    | none => none

/-- `_onConnection(socket)` (src/lib/TunnelAgent.js lines 115-199).
`sock` is the accepted socket's identity, `remoteAddress` its peer
address string.  In order: if `connectedSockets >= maxTcpSockets` the
socket is destroyed and nothing else happens; otherwise `online` is
emitted when `connectedSockets === 0`, the normalized peer IP is
recorded in `agentIps` when new, `connectedSockets` is incremented, and
the socket is handed to the head waiter when one exists (shifting it
off `waitingCreateConn`) or pushed onto `availableSockets`.  The handed
socket joins the ghost `checkedOut` list. -/
def onConnection (s : AgentState) (sock : Nat) (remoteAddress : String) :
    AgentState × List Evt :=
  if s.connectedSockets ≥ (s.maxTcpSockets : Int) then
    (s, [.sockDestroyed sock])
  else
    let onlineEvts : List Evt := if s.connectedSockets = 0 then [.online] else []
    let agentIps :=
      match normalizeIp remoteAddress with
      | some agentIp =>
        if agentIp ∈ s.agentIps then s.agentIps else s.agentIps ++ [agentIp]
      | none => s.agentIps
    let s1 := { s with agentIps := agentIps,
                       connectedSockets := s.connectedSockets + 1 }
    match s1.waitingCreateConn with
    | fn :: rest =>
      ({ s1 with waitingCreateConn := rest, checkedOut := s1.checkedOut ++ [sock] },
        onlineEvts ++ [.cbSocket fn sock])
    | [] =>
      ({ s1 with availableSockets := s1.availableSockets ++ [sock] }, onlineEvts)

/-- The per-socket `close` handler registered in `_onConnection`
(src/lib/TunnelAgent.js lines 130-144): decrement `connectedSockets`,
remove the socket from `availableSockets` when present
(`indexOf`/`splice`), and emit `offline` when the count reaches 0.  The
ghost `checkedOut` list drops the socket as well. -/
def onSocketClose (s : AgentState) (sock : Nat) : AgentState × List Evt :=
  let s1 := { s with connectedSockets := s.connectedSockets - 1,
                     availableSockets := s.availableSockets.erase sock,
                     checkedOut := s.checkedOut.erase sock }
  if s1.connectedSockets ≤ 0 then (s1, [.offline]) else (s1, [])

/-- `_onClose()` (src/lib/TunnelAgent.js lines 103-112): set `closed`,
complete every waiting createConnection callback with the `closed`
error, clear the waiters queue, emit `end`. -/
def onClose (s : AgentState) : AgentState × List Evt :=
  ({ s with closed := true, waitingCreateConn := [] },
    s.waitingCreateConn.map .cbErrClosed ++ [.endEvt])

/-- `createConnection(options, cb)` (src/lib/TunnelAgent.js lines
204-226): when `closed`, complete `cb` with the `closed` error; else
shift the head of `availableSockets` and give it to `cb`, or, when the
pool is empty, push `cb` onto `waitingCreateConn`.  A delivered socket
joins the ghost `checkedOut` list. -/
def createConnection (s : AgentState) (cb : Nat) : AgentState × List Evt :=
  if s.closed then (s, [.cbErrClosed cb])
  else
    match s.availableSockets with
    | sock :: rest =>
      ({ s with availableSockets := rest, checkedOut := s.checkedOut ++ [sock] },
        [.cbSocket cb sock])
    | [] =>
      ({ s with waitingCreateConn := s.waitingCreateConn ++ [cb] }, [])

/-- `destroy()` (src/lib/TunnelAgent.js lines 228-231): `server.close()`
makes the listener stop accepting new connections at once, but node
defers the listener's `close` event — the `_onClose` cascade that sets
`closed` — until every existing tunnel socket has ended, so the call
itself only marks the listener as closing.  The deferred event is the
separate `Op.serverClose`.  (`super.destroy()` acts on the `http.Agent`
base class's own socket lists, which do not hold the pooled tunnel
sockets.) -/
def destroy (s : AgentState) : AgentState × List Evt :=
  ({ s with listenerClosed := true }, [])

/-- The events the runtime can deliver to one `TunnelAgent`. -/
inductive Op where
  | connection (sock : Nat) (remoteAddress : String) : Op
  | createConn (cb : Nat) : Op
  | socketClose (sock : Nat) : Op
  | destroyOp : Op
  | serverClose : Op
deriving DecidableEq, Repr

def applyOp (s : AgentState) : Op → AgentState × List Evt
  | .connection sock ip => onConnection s sock ip
  | .createConn cb => createConnection s cb
  | .socketClose sock => onSocketClose s sock
  | .destroyOp => destroy s
  | .serverClose => onClose s

/-- Which events the runtime can actually deliver in a state: a
`connection` only while the listener accepts (`server.close()` not yet
called) and only for a fresh socket object; a socket `close` only for a
socket admitted and still open (the handler is registered with `once`,
and an over-budget socket is destroyed before its handlers are
registered); a `createConn` callback object is fresh; `destroy` is
always possible; the listener's deferred `close` event fires once,
after `server.close()` was called and every tunnel socket has ended. -/
def validOp (s : AgentState) : Op → Bool
  | .connection sock _ =>
    !s.listenerClosed && !decide (sock ∈ s.availableSockets) &&
      !decide (sock ∈ s.checkedOut)
  | .createConn cb => !decide (cb ∈ s.waitingCreateConn)
  | .socketClose sock =>
    decide (sock ∈ s.availableSockets) || decide (sock ∈ s.checkedOut)
  | .destroyOp => true
  | .serverClose =>
    s.listenerClosed && !s.closed && decide (s.availableSockets = []) &&
      decide (s.checkedOut = [])

/-- The agent states reachable from a freshly constructed agent by valid
events. -/
inductive Reachable (m : Nat) : AgentState → Prop
  | init : Reachable m (initState m)
  | step {s : AgentState} (op : Op) : Reachable m s → validOp s op = true →
      Reachable m (applyOp s op).1

/-- The socket hand-offs contained in an event list, in order: the pairs
(callback, socket) of its `cbSocket` events. -/
def handoffs (evts : List Evt) : List (Nat × Nat) :=
  evts.filterMap (fun e =>
    match e with
    | .cbSocket cb sock => some (cb, sock)
    | _ => none)

/-- Deliver a sequence of `connection` events, collecting all emitted
events in order. -/
def runConnections (s : AgentState) (socks : List Nat) (ip : String) :
    AgentState × List Evt :=
  match socks with
  | [] => (s, [])
  | sock :: rest =>
    let p := onConnection s sock ip
    let q := runConnections p.1 rest ip
    (q.1, p.2 ++ q.2)

/-- Deliver a sequence of `createConnection` calls, collecting all
emitted events in order. -/
def runCreateConns (s : AgentState) (cbs : List Nat) :
    AgentState × List Evt :=
  match cbs with
  | [] => (s, [])
  | cb :: rest =>
    let p := createConnection s cb
    let q := runCreateConns p.1 rest
    (q.1, p.2 ++ q.2)

end TunnelAgent

namespace ListenModel

/-!
Model of `listen()`'s resolve path and `getPublicIPv4()`
(src/lib/TunnelAgent.js lines 13-22 and 83-100).  The outcome of the
`fetch` to the IP-echo service is a parameter.
-/

/-- The possible outcomes of `fetch('https://ipv4.icanhazip.com/')`:
a response with `ok` set carrying a body, a response with `ok` unset,
or a rejected promise (network failure). -/
inductive FetchResult where
  | ok (body : String) : FetchResult
  | httpError : FetchResult
  | reject : FetchResult
deriving DecidableEq, Repr

/-- `getPublicIPv4()` (lines 15-22): returns the trimmed body on an
`ok` response, `null` on a non-`ok` response; a rejected `fetch` makes
the async function reject (`Except.error`). -/
def getPublicIPv4 : FetchResult → Except Unit (Option String)
  | .ok body => .ok (some body.trim)
  | .httpError => .ok none
  | .reject => .error ()

/-- The object `listen()`'s promise resolves with. -/
structure ListenInfo where
  port : Nat
  publicIp : Option String
deriving DecidableEq, Repr

/-- The body of the `server.listen` callback (lines 84-99) once the
bound port is known: with a cached `PUBLIC_IP` the lookup is skipped;
otherwise `getPublicIPv4()` is awaited with no exception handler, so a
rejected fetch propagates and `resolve` is never called (`none`: the
promise of `listen()` never settles). -/
def listenResolve (cachedPublicIp : Option String) (port : Nat)
    (fetchOutcome : FetchResult) : Option ListenInfo :=
  match cachedPublicIp with
  | some ip => some ⟨port, some ip⟩
  | none =>
    match getPublicIPv4 fetchOutcome with
    | .ok r => some ⟨port, r⟩
    | .error _ => none

end ListenModel

namespace TunnelAgent

/-- The state invariant of a `TunnelAgent`: the connected-socket counter
counts exactly the pooled plus the checked-out sockets, it never exceeds
`maxTcpSockets`, no socket appears twice, and the pool and the waiters
queue are never both non-empty. -/
def Inv (s : AgentState) : Prop :=
  s.connectedSockets = (s.availableSockets.length : Int) + (s.checkedOut.length : Int)
  ∧ s.connectedSockets ≤ (s.maxTcpSockets : Int)
  ∧ (s.availableSockets ++ s.checkedOut).Nodup
  ∧ (s.availableSockets = [] ∨ s.waitingCreateConn = [])

theorem inv_init (m : Nat) : Inv (initState m) := by
  refine ⟨rfl, ?_, ?_, Or.inl rfl⟩ <;> simp [initState]

theorem nodup_append_concat_right {l r : List Nat} {a : Nat}
    (h : (l ++ r).Nodup) (ha1 : a ∉ l) (ha2 : a ∉ r) :
    (l ++ (r ++ [a])).Nodup := by
  rw [List.nodup_append] at h ⊢
  obtain ⟨hl, hr, hd⟩ := h
  refine ⟨hl, ?_, ?_⟩
  · rw [List.nodup_append]
    refine ⟨hr, List.nodup_singleton a, ?_⟩
    intro x hx1 hx2
    simp only [List.mem_singleton] at hx2
    exact ha2 (hx2 ▸ hx1)
  · intro x hx1 hx2
    rcases List.mem_append.mp hx2 with h1 | h1
    · exact hd hx1 h1
    · simp only [List.mem_singleton] at h1
      exact ha1 (h1 ▸ hx1)

theorem nodup_concat_left {l r : List Nat} {a : Nat}
    (h : (l ++ r).Nodup) (ha1 : a ∉ l) (ha2 : a ∉ r) :
    ((l ++ [a]) ++ r).Nodup := by
  rw [List.nodup_append] at h ⊢
  obtain ⟨hl, hr, hd⟩ := h
  refine ⟨?_, hr, ?_⟩
  · rw [List.nodup_append]
    refine ⟨hl, List.nodup_singleton a, ?_⟩
    intro x hx1 hx2
    simp only [List.mem_singleton] at hx2
    exact ha1 (hx2 ▸ hx1)
  · intro x hx1 hx2
    rcases List.mem_append.mp hx1 with h1 | h1
    · exact hd h1 hx2
    · simp only [List.mem_singleton] at h1
      exact ha2 (h1 ▸ hx2)

theorem nodup_erase_append {l r : List Nat} {a : Nat}
    (h : (l ++ r).Nodup) :
    (l.erase a ++ r.erase a).Nodup := by
  rw [List.nodup_append] at h ⊢
  obtain ⟨hl, hr, hd⟩ := h
  exact ⟨hl.erase a, hr.erase a,
    fun x hx1 hx2 => hd (List.mem_of_mem_erase hx1) (List.mem_of_mem_erase hx2)⟩

theorem inv_step {s : AgentState} {op : Op} (hs : Inv s)
    (hv : validOp s op = true) : Inv (applyOp s op).1 := by
  obtain ⟨hcount, hmax, hnodup, hmutex⟩ := hs
  cases op with
  | connection sock ip =>
    simp only [validOp, Bool.and_eq_true, Bool.not_eq_true',
      decide_eq_false_iff_not] at hv
    obtain ⟨⟨hclosed, hsa⟩, hsc⟩ := hv
    simp only [applyOp, onConnection]
    split
    · exact ⟨hcount, hmax, hnodup, hmutex⟩
    · rename_i hlt
      push_neg at hlt
      split
      · rename_i fn rest hw
        have havail : s.availableSockets = [] := by
          rcases hmutex with h | h
          · exact h
          · rw [h] at hw; cases hw
        refine ⟨?_, ?_, ?_, Or.inl havail⟩
        · dsimp only
          simp only [List.length_append, List.length_singleton,
            List.length_cons, List.length_nil]
          push_cast
          omega
        · dsimp only
          omega
        · dsimp only
          exact nodup_append_concat_right hnodup hsa hsc
      · rename_i hw
        refine ⟨?_, ?_, ?_, Or.inr hw⟩
        · dsimp only
          simp only [List.length_append, List.length_singleton,
            List.length_cons, List.length_nil]
          push_cast
          omega
        · dsimp only
          omega
        · dsimp only
          exact nodup_concat_left hnodup hsa hsc
  | createConn cb =>
    simp only [applyOp, createConnection]
    split
    · exact ⟨hcount, hmax, hnodup, hmutex⟩
    · split
      · rename_i sock rest hav
        have hwait : s.waitingCreateConn = [] := by
          rcases hmutex with h | h
          · rw [h] at hav; cases hav
          · exact h
        rw [hav] at hnodup hcount
        rw [List.cons_append, List.nodup_cons, List.mem_append] at hnodup
        push_neg at hnodup
        obtain ⟨⟨hsr, hsc⟩, hnodup⟩ := hnodup
        refine ⟨?_, hmax, ?_, Or.inr hwait⟩
        · dsimp only
          simp only [List.length_cons, List.length_append,
            List.length_singleton, List.length_nil] at hcount ⊢
          push_cast at hcount ⊢
          omega
        · dsimp only
          exact nodup_append_concat_right hnodup hsr hsc
      · rename_i hav
        exact ⟨hcount, hmax, hnodup, Or.inl hav⟩
  | socketClose sock =>
    simp only [validOp, Bool.or_eq_true, decide_eq_true_eq] at hv
    simp only [applyOp, onSocketClose]
    have hdisj : s.availableSockets.Disjoint s.checkedOut :=
      (List.nodup_append.mp hnodup).2.2
    have hlen : (s.availableSockets.erase sock).length +
        (s.checkedOut.erase sock).length + 1 =
        s.availableSockets.length + s.checkedOut.length := by
      rcases hv with hmem | hmem
      · have h1 : sock ∉ s.checkedOut := fun hc => hdisj hmem hc
        rw [List.length_erase_of_mem hmem, List.erase_of_not_mem h1]
        have := List.length_pos_of_mem hmem
        omega
      · have h1 : sock ∉ s.availableSockets := fun ha => hdisj ha hmem
        rw [List.length_erase_of_mem hmem, List.erase_of_not_mem h1]
        have := List.length_pos_of_mem hmem
        omega
    have hres :
        Inv { s with
              connectedSockets := s.connectedSockets - 1,
              availableSockets := s.availableSockets.erase sock,
              checkedOut := s.checkedOut.erase sock } := by
      refine ⟨?_, ?_, nodup_erase_append hnodup, ?_⟩
      · dsimp only
        omega
      · dsimp only
        omega
      · dsimp only
        rcases hmutex with h | h
        · exact Or.inl (by simp [h])
        · exact Or.inr h
    split
    · exact hres
    · exact hres
  | destroyOp =>
    exact ⟨hcount, hmax, hnodup, hmutex⟩
  | serverClose =>
    simp only [applyOp, onClose]
    exact ⟨hcount, hmax, hnodup, Or.inr rfl⟩

/-- Every reachable agent state satisfies the invariant. -/
theorem inv_of_reachable {m : Nat} {s : AgentState} (h : Reachable m s) :
    Inv s := by
  induction h with
  | init => exact inv_init m
  | step op _ hv ih => exact inv_step ih hv

end TunnelAgent

namespace TunnelAgent

theorem handoffs_append (e1 e2 : List Evt) :
    handoffs (e1 ++ e2) = handoffs e1 ++ handoffs e2 := by
  simp [handoffs]

theorem handoffs_online_if (c : Prop) [Decidable c] :
    handoffs (if c then [Evt.online] else []) = [] := by
  split <;> rfl

/-- Admission below capacity with a pending waiter: the socket goes to
the head waiter, the rest of the waiters stay queued, and the pool is
untouched. -/
theorem onConnection_waiter {s : AgentState} {sock fn : Nat} {tl : List Nat}
    (ip : String) (hlt : s.connectedSockets < (s.maxTcpSockets : Int))
    (hw : s.waitingCreateConn = fn :: tl) :
    onConnection s sock ip =
      ({ s with
          agentIps :=
            match normalizeIp ip with
            | some a =>
              if a ∈ s.agentIps then s.agentIps else s.agentIps ++ [a]
            | none => s.agentIps,
          connectedSockets := s.connectedSockets + 1,
          waitingCreateConn := tl,
          checkedOut := s.checkedOut ++ [sock] },
        (if s.connectedSockets = 0 then [Evt.online] else []) ++
          [Evt.cbSocket fn sock]) := by
  simp only [onConnection, if_neg (not_le.mpr hlt), hw]

/-- `createConnection` on an open agent with a non-empty pool delivers
the pool's head. -/
theorem createConnection_gives_head {s : AgentState} {sock : Nat}
    {rest : List Nat} (cb : Nat) (hcl : s.closed = false)
    (hav : s.availableSockets = sock :: rest) :
    createConnection s cb =
      ({ s with availableSockets := rest,
                checkedOut := s.checkedOut ++ [sock] },
        [Evt.cbSocket cb sock]) := by
  simp only [createConnection, hcl, Bool.false_eq_true, if_false, hav]

/-- Serving waiters is FIFO with respect to admissions: admitting one
socket per pending waiter hands the i-th admitted socket to the i-th
queued waiter. -/
theorem runConnections_serves_waiters (ip : String) :
    ∀ (ws socks : List Nat) (s : AgentState),
      s.waitingCreateConn = ws →
      socks.length = ws.length →
      s.connectedSockets + (ws.length : Int) ≤ (s.maxTcpSockets : Int) →
      handoffs (runConnections s socks ip).2 = ws.zip socks := by
  intro ws
  induction ws with
  | nil =>
    intro socks s hw hlen _
    rw [List.length_nil, List.length_eq_zero] at hlen
    subst hlen
    simp [runConnections, handoffs]
  | cons w ws ih =>
    intro socks s hw hlen hcap
    cases socks with
    | nil => simp at hlen
    | cons sock rest =>
      have hlt : s.connectedSockets < (s.maxTcpSockets : Int) := by
        simp only [List.length_cons] at hcap
        push_cast at hcap
        omega
      simp only [runConnections]
      rw [onConnection_waiter ip hlt hw, handoffs_append, handoffs_append,
        handoffs_online_if]
      have hstep := ih rest
        { s with
            agentIps :=
              match normalizeIp ip with
              | some a =>
                if a ∈ s.agentIps then s.agentIps else s.agentIps ++ [a]
              | none => s.agentIps,
            connectedSockets := s.connectedSockets + 1,
            waitingCreateConn := ws,
            checkedOut := s.checkedOut ++ [sock] }
        rfl
        (by simpa using hlen)
        (by
          dsimp only
          simp only [List.length_cons] at hcap
          push_cast at hcap ⊢
          omega)
      rw [hstep]
      simp [handoffs]
  
/-- Consuming the pool is FIFO: a run of `createConnection` calls
delivers the pooled sockets in queue order. -/
theorem runCreateConns_fifo :
    ∀ (cbs : List Nat) (s : AgentState),
      s.closed = false →
      cbs.length ≤ s.availableSockets.length →
      handoffs (runCreateConns s cbs).2 = cbs.zip s.availableSockets := by
  intro cbs
  induction cbs with
  | nil => intro s _ _; simp [runCreateConns, handoffs]
  | cons cb cbs ih =>
    intro s hcl hlen
    cases hav : s.availableSockets with
    | nil => rw [hav] at hlen; simp at hlen
    | cons sock rest =>
      simp only [runCreateConns]
      rw [createConnection_gives_head cb hcl hav, handoffs_append]
      have hstep := ih
        { s with availableSockets := rest,
                 checkedOut := s.checkedOut ++ [sock] }
        hcl
        (by
          dsimp only
          rw [hav] at hlen
          simp only [List.length_cons] at hlen
          omega)
      rw [hstep]
      simp [handoffs]

end TunnelAgent

namespace TunnelAgent

/-- C1: `create_connection(cb)` — if the agent's closed flag is set, the
callback is completed with a `closed` error; otherwise, if the
available-socket queue is non-empty, its head is removed and delivered
synchronously to the callback; otherwise the callback is appended to the
waiters queue and is satisfied by the next admitted socket. -/
theorem createConnection_semantics (s : AgentState) (cb : Nat) :
    (s.closed = true → createConnection s cb = (s, [Evt.cbErrClosed cb]))
  ∧ (s.closed = false → ∀ sock rest, s.availableSockets = sock :: rest →
      createConnection s cb =
        ({ s with availableSockets := rest,
                  checkedOut := s.checkedOut ++ [sock] },
          [Evt.cbSocket cb sock]))
  ∧ (s.closed = false → s.availableSockets = [] →
      (createConnection s cb).1.waitingCreateConn = s.waitingCreateConn ++ [cb]
      ∧ (createConnection s cb).2 = []
      ∧ (s.waitingCreateConn = [] → ∀ sock ip,
          (createConnection s cb).1.connectedSockets <
            ((createConnection s cb).1.maxTcpSockets : Int) →
          Evt.cbSocket cb sock ∈
            (onConnection (createConnection s cb).1 sock ip).2)) := by
  refine ⟨?_, ?_, ?_⟩
  · intro h
    simp [createConnection, h]
  · intro h sock rest hav
    exact createConnection_gives_head cb h hav
  · intro h hav
    have hcc : createConnection s cb =
        ({ s with waitingCreateConn := s.waitingCreateConn ++ [cb] }, []) := by
      simp [createConnection, h, hav]
    refine ⟨by rw [hcc], by rw [hcc], ?_⟩
    intro hw0 sock ip hlt
    rw [hcc] at hlt ⊢
    have hw1 : ({ s with waitingCreateConn := s.waitingCreateConn ++ [cb] } :
        AgentState).waitingCreateConn = cb :: [] := by
      dsimp only
      rw [hw0]
      rfl
    rw [@onConnection_waiter
      { s with waitingCreateConn := s.waitingCreateConn ++ [cb] }
      sock cb [] ip hlt hw1]
    simp

/-- C2: counterexample trace at the failing input.  With one live pooled
socket, `destroy()` does not set the closed flag (node defers the
listener `close` event until every tunnel socket has ended), so the
very next `create_connection` hands out the pooled socket instead of
failing with the `closed` error.  The listener does stop accepting new
sockets at once, the deferred close event cannot fire while the socket
lives, and only after the socket ends and the event runs `_onClose`
does `create_connection` fail as the claim describes. -/
theorem destroy_not_synchronous :
    (destroy ⟨[6], [], 1, 10, false, false, [], []⟩).1.closed = false
  ∧ createConnection (destroy ⟨[6], [], 1, 10, false, false, [], []⟩).1 3 =
      ((⟨[], [], 1, 10, false, true, [], [6]⟩ : AgentState),
        [Evt.cbSocket 3 6])
  ∧ validOp (destroy ⟨[6], [], 1, 10, false, false, [], []⟩).1
      (Op.connection 9 "1.2.3.4") = false
  ∧ validOp (destroy ⟨[6], [], 1, 10, false, false, [], []⟩).1
      Op.serverClose = false
  ∧ validOp
      (onSocketClose (destroy ⟨[6], [], 1, 10, false, false, [], []⟩).1 6).1
      Op.serverClose = true
  ∧ createConnection
      (onClose (onSocketClose
        (destroy ⟨[6], [], 1, 10, false, false, [], []⟩).1 6).1).1 4 =
      ((onClose (onSocketClose
        (destroy ⟨[6], [], 1, 10, false, false, [], []⟩).1 6).1).1,
        [Evt.cbErrClosed 4]) := by
  refine ⟨rfl, by decide, by decide, by decide, by decide, by decide⟩

/-- C3: in every reachable agent state, `connectedSockets` equals the
number of sockets in the available queue plus the number of sockets
checked out to consumers, and is never negative. -/
theorem connectedSockets_accounting {m : Nat} {s : AgentState}
    (h : Reachable m s) :
    s.connectedSockets =
      (s.availableSockets.length : Int) + (s.checkedOut.length : Int)
    ∧ 0 ≤ s.connectedSockets := by
  obtain ⟨h1, _, _, _⟩ := inv_of_reachable h
  refine ⟨h1, ?_⟩
  rw [h1]
  positivity

/-- C4: in every reachable agent state the available-socket queue and
the waiters queue are not both non-empty. -/
theorem available_waiters_not_both_nonempty {m : Nat} {s : AgentState}
    (h : Reachable m s) :
    s.availableSockets = [] ∨ s.waitingCreateConn = [] :=
  (inv_of_reachable h).2.2.2

/-- C5: `connectedSockets` never exceeds `maxTcpSockets` in a reachable
state, and a connection admitted while `connectedSockets >= maxSockets`
is destroyed immediately with the whole state (counter, queues,
agent-IP set) unchanged. -/
theorem maxSockets_bound :
    (∀ (m : Nat) (s : AgentState), Reachable m s →
      s.connectedSockets ≤ (s.maxTcpSockets : Int))
  ∧ (∀ (s : AgentState) (sock : Nat) (ip : String),
      s.connectedSockets ≥ (s.maxTcpSockets : Int) →
      onConnection s sock ip = (s, [Evt.sockDestroyed sock])) := by
  constructor
  · intro m s h
    exact (inv_of_reachable h).2.1
  · intro s sock ip hge
    simp [onConnection, hge]

/-- C6: within one agent, pending waiters are satisfied in FIFO order
with respect to admissions, available sockets are consumed in FIFO
queue order, and an admitted socket joins the queue at its tail (so
queue order is admission order). -/
theorem fifo_order :
    (∀ (ip : String) (ws socks : List Nat) (s : AgentState),
      s.waitingCreateConn = ws →
      socks.length = ws.length →
      s.connectedSockets + (ws.length : Int) ≤ (s.maxTcpSockets : Int) →
      handoffs (runConnections s socks ip).2 = ws.zip socks)
  ∧ (∀ (cbs : List Nat) (s : AgentState),
      s.closed = false →
      cbs.length ≤ s.availableSockets.length →
      handoffs (runCreateConns s cbs).2 = cbs.zip s.availableSockets)
  ∧ (∀ (s : AgentState) (sock : Nat) (ip : String),
      s.connectedSockets < (s.maxTcpSockets : Int) →
      s.waitingCreateConn = [] →
      (onConnection s sock ip).1.availableSockets =
        s.availableSockets ++ [sock]) := by
  refine ⟨runConnections_serves_waiters, runCreateConns_fifo, ?_⟩
  intro s sock ip hlt hw
  simp [onConnection, if_neg (not_le.mpr hlt), hw]

/-- C7: the close cascade sets the closed flag, completes every pending
waiter with the `closed` error, empties the waiters queue, and emits the
`end` event. -/
theorem close_cascade (s : AgentState) :
    (onClose s).1.closed = true
  ∧ (onClose s).1.waitingCreateConn = []
  ∧ (onClose s).2 = s.waitingCreateConn.map Evt.cbErrClosed ++ [Evt.endEvt]
  ∧ (∀ cb, cb ∈ s.waitingCreateConn → Evt.cbErrClosed cb ∈ (onClose s).2)
  ∧ Evt.endEvt ∈ (onClose s).2 := by
  refine ⟨rfl, rfl, rfl, ?_, ?_⟩
  · intro cb hcb
    simp only [onClose, List.mem_append, List.mem_map]
    exact Or.inl ⟨cb, hcb, rfl⟩
  · simp [onClose]

/-- C8: the code at the failing input — empty `PUBLIC_IP` cache and a
rejected fetch — never resolves the `listen()` promise (the awaited
exception skips `resolve`), contradicting the claim that the lookup's
failure cannot prevent `listen()` from completing; a non-`ok` response
does resolve with the port and no `publicIp`, and an `ok` response
resolves with the trimmed body as `publicIp`. -/
theorem listen_public_ip_lookup :
    ListenModel.listenResolve none 1234 ListenModel.FetchResult.reject = none
  ∧ ListenModel.listenResolve none 1234 ListenModel.FetchResult.httpError =
      some { port := 1234, publicIp := none }
  ∧ ∀ body : String,
      ListenModel.listenResolve none 1234 (ListenModel.FetchResult.ok body) =
        some { port := 1234, publicIp := some body.trim } :=
  ⟨rfl, rfl, fun _ => rfl⟩

/-- C9: peer-address normalization — an IPv4-mapped IPv6 address such as
`::ffff:1.2.3.4` is recorded as `1.2.3.4`, a valid IPv4 address is kept
verbatim, a valid plain IPv6 address is recorded in normalized form, an
invalid address yields nothing, and on admission the agent-IP set is
extended exactly by the normalized address (when new) or left unchanged
(when invalid or already present). -/
theorem ip_normalization :
    normalizeIp "::ffff:1.2.3.4" = some "1.2.3.4"
  ∧ (∀ ip, Ipaddr.isValidIPv4 ip = true → normalizeIp ip = some ip)
  ∧ (∀ ip gs, Ipaddr.isValidIPv4 ip = false →
      Ipaddr.parseIPv6Groups ip = some gs →
      Ipaddr.isIPv4MappedAddress gs = true →
      normalizeIp ip = some (Ipaddr.toIPv4AddressString gs))
  ∧ (∀ ip gs, Ipaddr.isValidIPv4 ip = false →
      Ipaddr.parseIPv6Groups ip = some gs →
      Ipaddr.isIPv4MappedAddress gs = false →
      normalizeIp ip = some (Ipaddr.toNormalizedString gs))
  ∧ (∀ ip, Ipaddr.isValidIPv4 ip = false →
      Ipaddr.parseIPv6Groups ip = none → normalizeIp ip = none)
  ∧ (∀ (s : AgentState) (sock : Nat) (ip : String),
      s.connectedSockets < (s.maxTcpSockets : Int) →
      (normalizeIp ip = none →
        (onConnection s sock ip).1.agentIps = s.agentIps)
      ∧ (∀ a, normalizeIp ip = some a →
          (onConnection s sock ip).1.agentIps =
            if a ∈ s.agentIps then s.agentIps else s.agentIps ++ [a])) := by
  refine ⟨by decide, ?_, ?_, ?_, ?_, ?_⟩
  · intro ip h
    simp [normalizeIp, h]
  · intro ip gs h1 h2 h3
    simp [normalizeIp, h1, h2, h3]
  · intro ip gs h1 h2 h3
    simp [normalizeIp, h1, h2, h3]
  · intro ip h1 h2
    simp [normalizeIp, h1, h2]
  · intro s sock ip hlt
    constructor
    · intro hn
      simp only [onConnection, if_neg (not_le.mpr hlt), hn]
      split <;> rfl
    · intro a ha
      simp only [onConnection, if_neg (not_le.mpr hlt), ha]
      split <;> rfl

/-- C10: frame conditions — the close cascade leaves the available
queue (and the checked-out sockets) untouched and destroys no socket,
and a `create_connection` on a closed agent leaves the whole state
(available queue and waiters queue included) unchanged while completing
the callback with the `closed` error. -/
theorem close_and_closed_createConnection_frame (s : AgentState) :
    (onClose s).1.availableSockets = s.availableSockets
  ∧ (destroy s).1.availableSockets = s.availableSockets
  ∧ (destroy s).1.checkedOut = s.checkedOut
  ∧ (∀ sock, Evt.sockDestroyed sock ∉ (destroy s).2)
  ∧ (s.closed = true → ∀ cb,
      (createConnection s cb).1 = s
      ∧ (createConnection s cb).2 = [Evt.cbErrClosed cb]) := by
  refine ⟨rfl, rfl, rfl, ?_, ?_⟩
  · intro sock
    simp [destroy]
  · intro hcl cb
    constructor <;> simp [createConnection, hcl]

end TunnelAgent

namespace TunnelAgent

/-- Concrete instantiation of `createConnection_semantics`: a closed
agent errors, a pooled socket is delivered synchronously, and a parked
callback receives the next admitted socket. -/
theorem createConnection_semantics_witness :
    createConnection ⟨[], [], 0, 10, true, true, [], []⟩ 5 =
      (⟨[], [], 0, 10, true, true, [], []⟩, [Evt.cbErrClosed 5])
  ∧ createConnection ⟨[9], [], 1, 10, false, false, [], []⟩ 5 =
      (⟨[], [], 1, 10, false, false, [], [9]⟩, [Evt.cbSocket 5 9])
  ∧ Evt.cbSocket 5 7 ∈
      (onConnection (createConnection ⟨[], [], 0, 10, false, false, [], []⟩ 5).1 7
        "1.2.3.4").2 :=
  ⟨(createConnection_semantics ⟨[], [], 0, 10, true, true, [], []⟩ 5).1 rfl,
   (createConnection_semantics ⟨[9], [], 1, 10, false, false, [], []⟩ 5).2.1 rfl 9 [] rfl,
   ((createConnection_semantics ⟨[], [], 0, 10, false, false, [], []⟩ 5).2.2 rfl
      rfl).2.2 rfl 7 "1.2.3.4" (by decide)⟩

/-- Concrete instantiation of `connectedSockets_accounting` after one
admission. -/
theorem connectedSockets_accounting_witness :
    (applyOp (initState 10) (Op.connection 3 "1.2.3.4")).1.connectedSockets =
      ((applyOp (initState 10)
        (Op.connection 3 "1.2.3.4")).1.availableSockets.length : Int)
      + ((applyOp (initState 10)
        (Op.connection 3 "1.2.3.4")).1.checkedOut.length : Int)
    ∧ 0 ≤ (applyOp (initState 10)
        (Op.connection 3 "1.2.3.4")).1.connectedSockets :=
  connectedSockets_accounting
    (Reachable.step (Op.connection 3 "1.2.3.4") Reachable.init (by decide))

/-- Concrete instantiation of `available_waiters_not_both_nonempty`
after one parked checkout. -/
theorem available_waiters_not_both_nonempty_witness :
    (applyOp (initState 10) (Op.createConn 4)).1.availableSockets = []
    ∨ (applyOp (initState 10) (Op.createConn 4)).1.waitingCreateConn = [] :=
  available_waiters_not_both_nonempty
    (Reachable.step (Op.createConn 4) Reachable.init (by decide))

/-- Concrete instantiation of `maxSockets_bound`: the bound at the
initial state, and a rejected admission at capacity. -/
theorem maxSockets_bound_witness :
    (initState 10).connectedSockets ≤ ((initState 10).maxTcpSockets : Int)
  ∧ onConnection ⟨[4], [], 1, 1, false, false, [], []⟩ 9 "1.2.3.4" =
      (⟨[4], [], 1, 1, false, false, [], []⟩, [Evt.sockDestroyed 9]) :=
  ⟨maxSockets_bound.1 10 (initState 10) Reachable.init,
   maxSockets_bound.2 ⟨[4], [], 1, 1, false, false, [], []⟩ 9 "1.2.3.4" (by decide)⟩

/-- Concrete instantiation of `fifo_order`: two queued waiters are
served by the next two admissions in order, and two checkouts consume
the pool in order. -/
theorem fifo_order_witness :
    handoffs (runConnections ⟨[], [4, 5], 0, 10, false, false, [], []⟩
        [7, 8] "1.2.3.4").2 = List.zip [4, 5] [7, 8]
  ∧ handoffs (runCreateConns ⟨[7, 8], [], 2, 10, false, false, [], []⟩
        [4, 5]).2 = List.zip [4, 5] [7, 8] :=
  ⟨fifo_order.1 "1.2.3.4" [4, 5] [7, 8] ⟨[], [4, 5], 0, 10, false, false, [], []⟩
      rfl rfl (by decide),
   fifo_order.2.1 [4, 5] ⟨[7, 8], [], 2, 10, false, false, [], []⟩ rfl (by decide)⟩

/-- Concrete instantiation of `close_cascade`: a pending waiter receives
the `closed` error. -/
theorem close_cascade_witness :
    Evt.cbErrClosed 3 ∈ (onClose ⟨[], [3, 4], 0, 10, false, false, [], []⟩).2 :=
  (close_cascade ⟨[], [3, 4], 0, 10, false, false, [], []⟩).2.2.2.1 3 (by decide)

/-- Concrete instantiation of `ip_normalization` on a plain IPv4
address, a mapped address, a plain IPv6 address, an invalid string, and
two admissions. -/
theorem ip_normalization_witness :
    normalizeIp "1.2.3.4" = some "1.2.3.4"
  ∧ normalizeIp "::ffff:10.0.0.1" =
      some (Ipaddr.toIPv4AddressString [0, 0, 0, 0, 0, 65535, 2560, 1])
  ∧ normalizeIp "2001:db8::1" =
      some (Ipaddr.toNormalizedString [8193, 3512, 0, 0, 0, 0, 0, 1])
  ∧ normalizeIp "nope" = none
  ∧ (onConnection ⟨[], [], 0, 10, false, false, [], []⟩ 7 "nope").1.agentIps = []
  ∧ (onConnection ⟨[], [], 0, 10, false, false, [], []⟩ 7 "1.2.3.4").1.agentIps =
      (if "1.2.3.4" ∈ ([] : List String) then ([] : List String)
       else [] ++ ["1.2.3.4"]) :=
  ⟨ip_normalization.2.1 "1.2.3.4" (by decide),
   ip_normalization.2.2.1 "::ffff:10.0.0.1" [0, 0, 0, 0, 0, 65535, 2560, 1]
     (by decide) (by decide) (by decide),
   ip_normalization.2.2.2.1 "2001:db8::1" [8193, 3512, 0, 0, 0, 0, 0, 1]
     (by decide) (by decide) (by decide),
   ip_normalization.2.2.2.2.1 "nope" (by decide) (by decide),
   (ip_normalization.2.2.2.2.2 ⟨[], [], 0, 10, false, false, [], []⟩ 7 "nope"
     (by decide)).1 (by decide),
   (ip_normalization.2.2.2.2.2 ⟨[], [], 0, 10, false, false, [], []⟩ 7 "1.2.3.4"
     (by decide)).2 "1.2.3.4" (by decide)⟩

/-- Concrete instantiation of
`close_and_closed_createConnection_frame`: a closed-agent checkout
leaves the state unchanged, and the close cascade destroys no socket. -/
theorem close_and_closed_createConnection_frame_witness :
    (createConnection ⟨[6], [], 1, 10, true, true, [], []⟩ 2).1 =
      ⟨[6], [], 1, 10, true, true, [], []⟩
  ∧ Evt.sockDestroyed 9 ∉
      (destroy ⟨[6], [3], 1, 10, false, false, [], []⟩).2 :=
  ⟨((close_and_closed_createConnection_frame
      ⟨[6], [], 1, 10, true, true, [], []⟩).2.2.2.2 rfl 2).1,
   (close_and_closed_createConnection_frame
      ⟨[6], [3], 1, 10, false, false, [], []⟩).2.2.2.1 9⟩

end TunnelAgent
